import Mathlib

/-!
# The resource-strategy-fit scheduler plugin

A shallow embedding of `pkg/scheduler/plugins/resource-strategy-fit`
(`resource_strategy_fit.go`, `retention.go`) and theorems about it.

Conventions of the embedding.

* The functions that compute with `float64` are embedded twice. The first
  embedding reads the quantities as exact rationals (`ℚ`), the conversion
  `float64(n)` as the cast `ℤ → ℚ`, and a sum over a map as an order-free sum; it
  carries the properties stated in that reading and the properties of the code
  that rounding does not touch. The second embedding, in the namespace `Float64`,
  has the arithmetic of the code, rounding every operation to the nearest
  float64, and shows where a property of the exact reading fails in the code.
* Go's `int` and `int64` are 64-bit two's complement: every integer addition
  and multiplication the source performs is followed by `wrap64`.
* A Go `map` is an association list read with `List.lookup`; the loop
  `for k, v := range m { m[k] = f v }` is `List.map` over the entries.
* A `(float64, error)` result is an `Except String ℚ`.
* Log statements are dropped.
-/

namespace resourcestrategyfit

/-! ## Data model -/

/-- The name of a resource, `v1.ResourceName` (a Go string). -/
abbrev ResourceName := String

/-- The scoring strategy of a rule, `config.ScoringStrategyType` (a Go string). -/
abbrev ScoringStrategyType := String

/-- The strategy constant `config.MostAllocated`. -/
def MostAllocated : ScoringStrategyType := "MostAllocated"

/-- The strategy constant `config.LeastAllocated`. -/
def LeastAllocated : ScoringStrategyType := "LeastAllocated"

/-- Modelled from the spec: `k8sFramework.MaxNodeScore`, the host's ceiling for a
single score contribution, 100. -/
def MaxNodeScore : Int := 100

/-- The constant `DefaultResourceStrategyFitPluginWeight`. -/
def DefaultResourceStrategyFitPluginWeight : Int := 10

/-- The constant `RetentionPolicy` of `retention.go`. -/
def RetentionPolicy : String := "retention"

/-- Modelled from the spec: the constant `ProportionalPolicy`, declared in a file
of the plugin that is not among the sources; the policy name is "proportional". -/
def ProportionalPolicy : String := "proportional"

/-- The constant `SraRetentionWeight`. -/
def SraRetentionWeight : String := "sra.retention.weight"

/-- Two's complement wrap-around of a 64-bit signed integer operation. -/
def wrap64 (x : Int) : Int := (x + 2 ^ 63) % 2 ^ 64 - 2 ^ 63

/-- Modelled from the spec: `api.Resource`, a resource vector. The source reads
it only through `ResourceNames()` (the names it enumerates) and `Get(name)`
(the quantity under a name), which are its two fields here. -/
structure Resource where
  /-- The names enumerated by `ResourceNames()`. -/
  ResourceNames : List ResourceName
  /-- The quantity returned by `Get`. -/
  Get : ResourceName → ℚ

/-- Modelled from the spec: the part of `api.TaskInfo` the plugin reads. -/
structure TaskInfo where
  /-- The requested resource vector. -/
  Resreq : Resource

/-- Modelled from the spec: the part of `api.NodeInfo` the plugin reads. -/
structure NodeInfo where
  /-- The usable ceiling of the node. -/
  Allocatable : Resource
  /-- The quantities already in use on the node. -/
  Used : Resource
  /-- The total capacity of the node. -/
  Capacity : Resource

/-- The struct `ResourcesType`: one scoring rule. -/
structure ResourcesType where
  /-- The scoring strategy, the field `Type`. -/
  Type_ : ScoringStrategyType
  /-- The weight of the rule. -/
  Weight : Int
deriving DecidableEq, Repr

/-- The struct `ResourceStrategyFit`: the primary configuration. -/
structure ResourceStrategyFit where
  /-- The overall weight of the plugin. -/
  ResourceStrategyFitWeight : Int
  /-- The rule of each tracked resource. -/
  Resources : List (ResourceName × ResourcesType)
deriving DecidableEq, Repr

/-- The struct `retentionWeight` of `retention.go`. -/
structure retentionWeight where
  /-- The weight of the retention policy. -/
  Weight : Int
  /-- The weight of each scarce resource. -/
  Resources : List (ResourceName × Int)
  /-- The running sum of the per-resource weights. -/
  ResourcesWeightSum : Int
deriving DecidableEq, Repr

/-- The struct `sraConfig`: the decoded `sra` block of the arguments. -/
structure sraConfig where
  /-- The name of the secondary policy. -/
  Policy : String
  /-- The comma-separated resource list. -/
  Resources : String
  /-- The `retention` mapping. -/
  Retention : List (String × Int)
  /-- The `proportional` mapping. -/
  Proportional : List (String × ℚ)

/-- Modelled from the spec: `framework.Arguments`, the already decoded argument
bag, read through its typed accessors. An accessor that reports the key as absent
(or not decodable to the requested type) is `none`. -/
structure Arguments where
  /-- The result of `framework.Get[int](args, "resourceStrategyFitWeight")`. -/
  resourceStrategyFitWeight : Option Int
  /-- The result of `framework.Get[map[v1.ResourceName]ResourcesType](args, "resources")`. -/
  resources : Option (List (ResourceName × ResourcesType))
  /-- The result of `framework.Get[sraConfig](args, "sra")`. -/
  sra : Option sraConfig
  /-- The integer `args.GetInt` finds under a key, if any. -/
  GetInt : String → Option Int

/-- The functions of Go's `strings` package that the plugin calls. They are kept
abstract, with the one fact about them that the plugin relies on. -/
structure GoStrings where
  /-- The function `strings.ToLower`. -/
  ToLower : String → String
  /-- The function `strings.Split`. -/
  Split : String → String → List String
  /-- The function `strings.TrimSpace`. -/
  TrimSpace : String → String
  /-- Lower-casing the empty string gives the empty string. -/
  ToLower_empty : ToLower "" = ""

/-- Modelled from the spec: the declarations of the plugin that the two source
files use and that are declared in files not among the sources: the constant
`SraRetentionResourcesPrefix`, the type `baseResource`, the function
`calculateProportionalResources`, and the reading of the decoded `sra` block as
the argument bag that `calculateRetentionWeight` takes. -/
structure Missing where
  /-- The key prefix of a per-resource retention weight. -/
  SraRetentionResourcesPrefix : String
  /-- The base ratio descriptor of the proportional policy. -/
  baseResource : Type
  /-- The resolution of the proportional policy. -/
  calculateProportionalResources :
    List String → sraConfig → List (ResourceName × baseResource)
  /-- The `sra` block, as `applySraPolicy` hands it to `calculateRetentionWeight`. -/
  sraArguments : sraConfig → Arguments

/-- The struct `Sra`: the resolved secondary policy. -/
structure Sra (baseResource : Type) where
  /-- The resolved policy name; the empty name is the disabled policy. -/
  Policy : String
  /-- The retention configuration. -/
  Retention : retentionWeight
  /-- The proportional configuration. -/
  Proportional : List (ResourceName × baseResource)

/-- The struct `resourceStrategyFitPlugin`. -/
structure resourceStrategyFitPlugin (baseResource : Type) where
  /-- The primary configuration. -/
  weight : ResourceStrategyFit
  /-- The secondary policy. -/
  sraPolicy : Sra baseResource

/-- The error text of both per-resource scorers. -/
def notEnough : String := "node resources are not enough"

/-! ## Per-resource scorers, in the exact-rational reading -/

/-- The function `mostRequestedScore`. -/
def mostRequestedScore (requested used capacity : ℚ) (weight : Int) : Except String ℚ :=
  if capacity = 0 ∨ weight = 0 then .ok 0
  else
    let usedFinally := requested + used
    if usedFinally > capacity then .error notEnough
    else .ok (usedFinally * (weight : ℚ) / capacity)

/-- The function `leastRequestedScore`. -/
def leastRequestedScore (requested used capacity : ℚ) (weight : Int) : Except String ℚ :=
  if capacity = 0 ∨ weight = 0 then .ok 0
  else
    let usedFinally := requested + used
    if usedFinally > capacity then .error notEnough
    else .ok ((capacity - usedFinally) * (weight : ℚ) / capacity)

/-! ## Weighted aggregation, in the exact-rational reading -/

/-- The `switch scoringType` of `Score`: the scorer the rule selects. A strategy
that is neither constant leaves `resourceScore` and `err` at their zero values. -/
def scoreResource (rule : ResourcesType) (request nodeUsed allocate : ℚ) : Except String ℚ :=
  if rule.Type_ = MostAllocated then mostRequestedScore request nodeUsed allocate rule.Weight
  else if rule.Type_ = LeastAllocated then leastRequestedScore request nodeUsed allocate rule.Weight
  else .ok 0

/-- The `for` loop of `Score` over the requested resource names, with the
accumulators `score` and `weightSum`; `none` is the early `return 0`. -/
def scoreLoop (requested allocatable used : Resource) (weight : ResourceStrategyFit) :
    List ResourceName → ℚ → Int → Option (ℚ × Int)
  | [], score, weightSum => some (score, weightSum)
  | resource :: rest, score, weightSum =>
    match weight.Resources.lookup resource with
    | none => scoreLoop requested allocatable used weight rest score weightSum
    | some rule =>
      match scoreResource rule (requested.Get resource) (used.Get resource)
          (allocatable.Get resource) with
      | .error _ => none
      | .ok resourceScore =>
        scoreLoop requested allocatable used weight rest (score + resourceScore)
          (wrap64 (weightSum + rule.Weight))

/-- The function `Score`. -/
def Score (task : TaskInfo) (node : NodeInfo) (weight : ResourceStrategyFit) : ℚ :=
  match scoreLoop task.Resreq node.Allocatable node.Used weight task.Resreq.ResourceNames 0 0 with
  | none => 0
  | some (score, weightSum) =>
    (if weightSum > 0 then score / (weightSum : ℚ) else score)
      * ((wrap64 (MaxNodeScore * weight.ResourceStrategyFitWeight) : Int) : ℚ)

/-! ## Configuration resolution -/

/-- The body of the loop `for k, v := range resources` of `calculateWeight`. -/
def normalizeRule (v : ResourcesType) : ResourcesType :=
  let v := if v.Weight ≤ 0 then { v with Weight := 1 } else v
  if v.Type_ ≠ LeastAllocated ∧ v.Type_ ≠ MostAllocated then { v with Type_ := LeastAllocated }
  else v

/-- The mapping `calculateWeight` falls back on. -/
def defaultResources : List (ResourceName × ResourcesType) :=
  [("cpu", { Type_ := LeastAllocated, Weight := 1 }),
   ("memory", { Type_ := LeastAllocated, Weight := 1 })]

/-- The function `calculateWeight`. -/
def calculateWeight (args : Arguments) : ResourceStrategyFit :=
  let resourceStrategyFitPluginWeight :=
    match args.resourceStrategyFitWeight with
    | none => DefaultResourceStrategyFitPluginWeight
    | some w => if w < 0 then DefaultResourceStrategyFitPluginWeight else w
  let resources :=
    match args.resources with
    | none => defaultResources
    | some m => if m.length = 0 then defaultResources else m
  { ResourceStrategyFitWeight := resourceStrategyFitPluginWeight
    Resources := resources.map (fun kv => (kv.1, normalizeRule kv.2)) }

/-- The map assignment `m[k] = v`. -/
def mapSet {β : Type} (k : ResourceName) (v : β) :
    List (ResourceName × β) → List (ResourceName × β)
  | [] => [(k, v)]
  | kv :: rest => if kv.1 = k then (k, v) :: rest else kv :: mapSet k v rest

/-- The loop of `calculateRetentionWeight` over the resource names. -/
def retentionLoop (str : GoStrings) (keyPrefix : String) (args : Arguments) :
    List String → retentionWeight → retentionWeight
  | [], weight => weight
  | resource :: rest, weight =>
    let resource := str.TrimSpace resource
    if resource = "" then retentionLoop str keyPrefix args rest weight
    else
      let resourceKey := keyPrefix ++ resource
      let given := (args.GetInt resourceKey).getD 1
      let retentionWeight := if given < 0 then 1 else given
      retentionLoop str keyPrefix args rest
        { weight with
          Resources := mapSet resource retentionWeight weight.Resources
          ResourcesWeightSum := wrap64 (weight.ResourcesWeightSum + retentionWeight) }

/-- The function `calculateRetentionWeight`. -/
def calculateRetentionWeight (str : GoStrings) (ext : Missing) (resources : List String)
    (args : Arguments) : retentionWeight :=
  retentionLoop str ext.SraRetentionResourcesPrefix args resources
    { Weight := (args.GetInt SraRetentionWeight).getD 1
      Resources := []
      ResourcesWeightSum := 0 }

/-- The zero value of `sraConfig`, which `framework.Get` returns for an absent key. -/
def zeroSraConfig : sraConfig :=
  { Policy := "", Resources := "", Retention := [], Proportional := [] }

/-- The function `applySraPolicy`, returning the policy it stores in the plugin. -/
def applySraPolicy (str : GoStrings) (ext : Missing) (args : Arguments) :
    Sra ext.baseResource :=
  let sraPolicy : Sra ext.baseResource :=
    { Policy := "", Retention := { Weight := 0, Resources := [], ResourcesWeightSum := 0 },
      Proportional := [] }
  let cfg := args.sra.getD zeroSraConfig
  let resources := str.Split cfg.Resources ","
  let name := str.ToLower cfg.Policy
  if name = "" then sraPolicy
  else if name = RetentionPolicy then
    { sraPolicy with
      Policy := RetentionPolicy
      Retention := calculateRetentionWeight str ext resources (ext.sraArguments cfg) }
  else if name = ProportionalPolicy then
    { sraPolicy with
      Policy := ProportionalPolicy
      Proportional := ext.calculateProportionalResources resources cfg }
  else { sraPolicy with Policy := "" }

/-- The function `New`. -/
def New (str : GoStrings) (ext : Missing) (arguments : Arguments) :
    resourceStrategyFitPlugin ext.baseResource :=
  { weight := calculateWeight arguments, sraPolicy := applySraPolicy str ext arguments }

/-! ## Retention scoring, in the exact-rational reading -/

/-- Splitting a list of characters at every occurrence of a separator. -/
def splitChars (sep : Char) : List Char → List (List Char)
  | [] => [[]]
  | c :: cs =>
    if c = sep then [] :: splitChars sep cs
    else
      match splitChars sep cs with
      | [] => [[c]]
      | w :: ws => (c :: w) :: ws

/-- An instance of the string functions over ASCII: lower-casing of the letters
A to Z, splitting at a one-character separator, trimming of ASCII white space. -/
def asciiStrings : GoStrings :=
  { ToLower := fun s => String.mk (s.data.map Char.toLower)
    Split := fun s sep =>
      match sep.data with
      | [c] => (splitChars c s.data).map String.mk
      | _ => [s]
    TrimSpace := fun s =>
      String.mk ((s.data.dropWhile Char.isWhitespace).reverse.dropWhile Char.isWhitespace).reverse
    ToLower_empty := rfl }

/-- An instance of the missing declarations: the prefix "sra.retention.", no
proportional payload, and the `retention` mapping of the block read as integers
under that prefix. -/
def plainMissing : Missing :=
  { SraRetentionResourcesPrefix := "sra.retention."
    baseResource := Unit
    calculateProportionalResources := fun _ _ => []
    sraArguments := fun cfg =>
      { resourceStrategyFitWeight := none
        resources := none
        sra := none
        GetInt := fun key => cfg.Retention.lookup (key.drop 14) } }

/-! ## The aggregation, as the specification words it -/

/-- The requested resource names that have a rule in the mapping, in the order
in which they are enumerated. -/
def tracked (weight : ResourceStrategyFit) (names : List ResourceName) : List ResourceName :=
  names.filter (fun r => (weight.Resources.lookup r).isSome)

/-- Whether the scorer selected by the rule of a resource signals insufficiency. -/
def insufficient (requested allocatable used : Resource) (weight : ResourceStrategyFit)
    (r : ResourceName) : Bool :=
  match weight.Resources.lookup r with
  | none => false
  | some rule =>
    match scoreResource rule (requested.Get r) (used.Get r) (allocatable.Get r) with
    | .error _ => true
    | .ok _ => false

/-- The per-resource score of a resource: what the scorer selected by its rule
returns, 0 when it has no rule or the scorer fails. -/
def resourceScoreOf (requested allocatable used : Resource) (weight : ResourceStrategyFit)
    (r : ResourceName) : ℚ :=
  match weight.Resources.lookup r with
  | none => 0
  | some rule =>
    match scoreResource rule (requested.Get r) (used.Get r) (allocatable.Get r) with
    | .error _ => 0
    | .ok x => x

/-- The weight of the rule of a resource, 0 when it has no rule. -/
def resourceWeightOf (weight : ResourceStrategyFit) (r : ResourceName) : Int :=
  match weight.Resources.lookup r with
  | none => 0
  | some rule => rule.Weight

/-- The sum of the per-resource scores over the requested resources that have a rule. -/
def scoreSum (task : TaskInfo) (node : NodeInfo) (weight : ResourceStrategyFit) : ℚ :=
  ((tracked weight task.Resreq.ResourceNames).map
    (resourceScoreOf task.Resreq node.Allocatable node.Used weight)).sum

/-- The sum of the rule weights over the requested resources that have a rule,
as an unbounded integer. -/
def weightSumOf (task : TaskInfo) (weight : ResourceStrategyFit) : Int :=
  ((tracked weight task.Resreq.ResourceNames).map (resourceWeightOf weight)).sum

/-- The normalized score of the specification:
`(score / weightSum) * MaxNodeScore * overallWeight` if `weightSum > 0`, else 0. -/
def normalizedScore (task : TaskInfo) (node : NodeInfo) (weight : ResourceStrategyFit) : ℚ :=
  if weightSumOf task weight > 0 then
    scoreSum task node weight / (weightSumOf task weight : ℚ) * (MaxNodeScore : ℚ)
      * (weight.ResourceStrategyFitWeight : ℚ)
  else 0

/-! ## Concrete inputs -/

/-- The resource vector that enumerates the names of a list of pairs and holds
the listed quantity under each name, 0 under any other. -/
def Resource.ofList (l : List (ResourceName × ℚ)) : Resource :=
  { ResourceNames := l.map Prod.fst, Get := fun r => (l.lookup r).getD 0 }

/-- A task requesting 1 cpu and 1 gpu. -/
def taskCpuGpu : TaskInfo := { Resreq := Resource.ofList [("cpu", 1), ("gpu", 1)] }

/-- An idle node with 10 cpu and no gpu. -/
def nodeNoGpu : NodeInfo :=
  { Allocatable := Resource.ofList [("cpu", 10)]
    Used := Resource.ofList []
    Capacity := Resource.ofList [("cpu", 10)] }

/-- An idle node with 10 cpu and half a gpu. -/
def nodeHalfGpu : NodeInfo :=
  { Allocatable := Resource.ofList [("cpu", 10), ("gpu", 1 / 2)]
    Used := Resource.ofList []
    Capacity := Resource.ofList [("cpu", 10), ("gpu", 1 / 2)] }

/-- Overall weight 10, with cpu and gpu both LeastAllocated of weight 1. -/
def cfgCpuGpu : ResourceStrategyFit :=
  { ResourceStrategyFitWeight := 10
    Resources := [("cpu", { Type_ := LeastAllocated, Weight := 1 }),
                  ("gpu", { Type_ := LeastAllocated, Weight := 1 })] }

/-- Overall weight 10, with cpu LeastAllocated of weight 1 and gpu under a
strategy name that is neither constant. -/
def cfgUnknownStrategy : ResourceStrategyFit :=
  { ResourceStrategyFitWeight := 10
    Resources := [("cpu", { Type_ := LeastAllocated, Weight := 1 }),
                  ("gpu", { Type_ := "RequestedToCapacityRatio", Weight := 1 })] }

/-- A task requesting 1 cpu and 1 memory. -/
def taskCpuMem : TaskInfo := { Resreq := Resource.ofList [("cpu", 1), ("memory", 1)] }

/-- An idle node with 2 cpu and 2 memory. -/
def nodeTwoTwo : NodeInfo :=
  { Allocatable := Resource.ofList [("cpu", 2), ("memory", 2)]
    Used := Resource.ofList []
    Capacity := Resource.ofList [("cpu", 2), ("memory", 2)] }

/-- Overall weight 1, with cpu and memory both LeastAllocated of weight `2 ^ 62`. -/
def cfgHugeRuleWeights : ResourceStrategyFit :=
  { ResourceStrategyFitWeight := 1
    Resources := [("cpu", { Type_ := LeastAllocated, Weight := 2 ^ 62 }),
                  ("memory", { Type_ := LeastAllocated, Weight := 2 ^ 62 })] }

/-- Overall weight `2 ^ 63 - 1`, with cpu and memory both LeastAllocated of weight 1. -/
def cfgHugeOverallWeight : ResourceStrategyFit :=
  { ResourceStrategyFitWeight := 2 ^ 63 - 1
    Resources := [("cpu", { Type_ := LeastAllocated, Weight := 1 }),
                  ("memory", { Type_ := LeastAllocated, Weight := 1 })] }

/-- Overall weight 10, with cpu and memory both LeastAllocated of weight 1. -/
def cfgDefault : ResourceStrategyFit :=
  { ResourceStrategyFitWeight := 10
    Resources := [("cpu", { Type_ := LeastAllocated, Weight := 1 }),
                  ("memory", { Type_ := LeastAllocated, Weight := 1 })] }

/-- An argument bag with a negative overall weight and three rules: a gpu rule
with weight 0 and an unknown strategy, a valid cpu rule, and a memory rule with a
negative weight. -/
def argsMixed : Arguments :=
  { resourceStrategyFitWeight := some (-3)
    resources := some [("gpu", { Type_ := "Balanced", Weight := 0 }),
                       ("cpu", { Type_ := MostAllocated, Weight := 2 }),
                       ("memory", { Type_ := LeastAllocated, Weight := -5 })]
    sra := none
    GetInt := fun _ => none }

/-- An argument bag with overall weight 0, an empty `resources` mapping and no
`sra` block. -/
def argsEmpty : Arguments :=
  { resourceStrategyFitWeight := some 0
    resources := some []
    sra := none
    GetInt := fun _ => none }

/-! ## Registration with the session -/

/-- The policy name given in the `sra` block, empty when there is no block. -/
def givenPolicyName (args : Arguments) : String := (args.sra.getD zeroSraConfig).Policy

/-- An argument bag whose `sra` block names the policy "Retention". -/
def argsRetention : Arguments :=
  { resourceStrategyFitWeight := none
    resources := none
    sra := some { Policy := "Retention", Resources := "gpu", Retention := [("gpu", 10)],
                  Proportional := [] }
    GetInt := fun _ => none }

/-- The task requesting 1 cpu and 1 memory, enumerated in the other order. -/
def taskMemCpu : TaskInfo := { Resreq := Resource.ofList [("memory", 1), ("cpu", 1)] }

/-! ## The retention configuration, as the specification words it -/

/-- The resource names of a list after trimming, the blank ones skipped. -/
def retentionNames (str : GoStrings) (resources : List String) : List String :=
  (resources.map str.TrimSpace).filter (fun r => r ≠ "")

/-- The per-resource retention weight of a name: the integer read under its key,
1 by default, and 1 when it is negative. -/
def retentionWeightOf (keyPrefix : String) (args : Arguments) (resource : String) : Int :=
  let given := (args.GetInt (keyPrefix ++ resource)).getD 1
  if given < 0 then 1 else given

/-- The sum of the per-resource weights stored in a mapping, as an unbounded
integer. -/
def resourcesTotal (m : List (ResourceName × Int)) : Int := (m.map Prod.snd).sum

/-- The per-resource weights of the listed names added up, each occurrence of a
name counted, as an unbounded integer. -/
def retentionTotal (str : GoStrings) (keyPrefix : String) (args : Arguments)
    (resources : List String) : Int :=
  ((retentionNames str resources).map (retentionWeightOf keyPrefix args)).sum

/-- An argument bag that gives gpu and tpu the retention weight `2 ^ 62`. -/
def argsHugeRetention : Arguments :=
  { resourceStrategyFitWeight := none
    resources := none
    sra := none
    GetInt := fun key =>
      if key = "sra.retention.gpu" ∨ key = "sra.retention.tpu" then some (2 ^ 62) else none }

namespace Float64

/-- A float64 value. A finite value is counted in units of `2 ^ -1074`, the
smallest positive float64, of which every finite float64 is an integer multiple.
The two zeros are one value: the code never divides by a zero and compares zeros
only with `==` and `>`, which do not tell them apart. -/
inductive F64 where
  | finite (units : Int)
  | posInf
  | negInf
  | nan
deriving DecidableEq, Repr

/-- The nearest integer to `a / d`, ties to the even one. -/
def roundEven (a d : Nat) : Nat :=
  let q := a / d
  let r := a % d
  if 2 * r < d then q else if d < 2 * r then q + 1 else if q % 2 = 0 then q else q + 1

/-- The largest `t` below 4096 with `q / 2 ^ t ≥ 2 ^ 53`, and 0 if there is none.
The shift `q >>> t` is `q / 2 ^ t`, and `q <<< t` is `q * 2 ^ t`. -/
def excess (q : Nat) : Nat :=
  [2048, 1024, 512, 256, 128, 64, 32, 16, 8, 4, 2, 1].foldl
    (fun t k => if q >>> (t + k) ≥ 2 ^ 53 then t + k else t) 0

/-- The magnitude `a / d`, in units, rounded to 53 significant bits (to a whole
number of units below `2 ^ 53` units), ties to even. -/
def roundUnits (a d : Nat) : Nat :=
  let q := a / d
  if q < 2 ^ 53 then roundEven a d
  else
    let s := excess q + 1
    (roundEven a (d <<< s)) <<< s

/-- The largest finite float64, `(2 ^ 53 - 1) * 2 ^ 971`, in units. -/
def maxUnits : Nat := (2 ^ 53 - 1) <<< 2045

/-- The float64 nearest to the rational `num / den` units; beyond the largest
finite value the result is an infinity. -/
def F64.round (num : Int) (den : Nat) : F64 :=
  let r := roundUnits num.natAbs den
  if r > maxUnits then (if num < 0 then .negInf else .posInf)
  else .finite (if num < 0 then -(r : Int) else (r : Int))

/-- One, in units. -/
def oneUnits : Int := ((1 <<< 1074 : Nat) : Int)

/-- The float64 zero. -/
def F64.zero : F64 := .finite 0

/-- The conversion `float64(n)` of an integer. -/
def F64.ofInt (n : Int) : F64 := F64.round (n * oneUnits) 1

/-- The negation of a float64. -/
def F64.neg : F64 → F64
  | .finite a => .finite (-a)
  | .posInf => .negInf
  | .negInf => .posInf
  | .nan => .nan

/-- The float64 addition. -/
def F64.add : F64 → F64 → F64
  | .finite a, .finite b => F64.round (a + b) 1
  | .nan, _ => .nan
  | _, .nan => .nan
  | .posInf, .negInf => .nan
  | .negInf, .posInf => .nan
  | .posInf, _ => .posInf
  | _, .posInf => .posInf
  | .negInf, _ => .negInf
  | _, .negInf => .negInf

/-- The float64 subtraction. -/
def F64.sub (a b : F64) : F64 := F64.add a (F64.neg b)

/-- The sign of a float64 that is not a NaN: -1, 0 or 1. -/
def F64.sign : F64 → Int
  | .finite a => a.sign
  | .posInf => 1
  | .negInf => -1
  | .nan => 0

/-- The float64 multiplication. -/
def F64.mul : F64 → F64 → F64
  | .finite a, .finite b => F64.round (a * b) (1 <<< 1074)
  | .nan, _ => .nan
  | _, .nan => .nan
  | a, b =>
    if a.sign * b.sign = 0 then .nan
    else if a.sign * b.sign < 0 then .negInf else .posInf

/-- The float64 division. A finite divisor 0 is the positive zero. -/
def F64.div : F64 → F64 → F64
  | .finite a, .finite b =>
    if b = 0 then (if a = 0 then .nan else if a < 0 then .negInf else .posInf)
    else F64.round (a * oneUnits * b.sign) b.natAbs
  | .nan, _ => .nan
  | _, .nan => .nan
  | .finite _, _ => .finite 0
  | a, .finite b => if a.sign * (if b < 0 then -1 else 1) < 0 then .negInf else .posInf
  | _, _ => .nan

/-- The float64 comparison `a < b`. -/
def F64.lt : F64 → F64 → Bool
  | .finite a, .finite b => decide (a < b)
  | .nan, _ => false
  | _, .nan => false
  | .negInf, .negInf => false
  | .negInf, _ => true
  | _, .negInf => false
  | .posInf, _ => false
  | _, .posInf => true

/-- The result `(float64, error)` of a per-resource scorer: a score, or the error
"node resources are not enough". -/
inductive ScoreResult where
  | ok (score : F64)
  | notEnough
deriving DecidableEq, Repr

/-- Modelled from the spec: `api.Resource` with float64 quantities. -/
structure Resource where
  /-- The names enumerated by `ResourceNames()`. -/
  ResourceNames : List ResourceName
  /-- The quantity returned by `Get`. -/
  Get : ResourceName → F64

/-- Modelled from the spec: the part of `api.TaskInfo` the plugin reads. -/
structure TaskInfo where
  /-- The requested resource vector. -/
  Resreq : Resource

/-- Modelled from the spec: the part of `api.NodeInfo` the plugin reads. -/
structure NodeInfo where
  /-- The usable ceiling of the node. -/
  Allocatable : Resource
  /-- The quantities already in use on the node. -/
  Used : Resource
  /-- The total capacity of the node. -/
  Capacity : Resource

/-- The function `mostRequestedScore`, in float64. -/
def mostRequestedScore (requested used capacity : F64) (weight : Int) : ScoreResult :=
  if capacity = F64.zero ∨ weight = 0 then .ok F64.zero
  else
    let usedFinally := F64.add requested used
    if F64.lt capacity usedFinally then .notEnough
    else .ok (F64.div (F64.mul usedFinally (F64.ofInt weight)) capacity)

/-- The function `leastRequestedScore`, in float64. -/
def leastRequestedScore (requested used capacity : F64) (weight : Int) : ScoreResult :=
  if capacity = F64.zero ∨ weight = 0 then .ok F64.zero
  else
    let usedFinally := F64.add requested used
    if F64.lt capacity usedFinally then .notEnough
    else .ok (F64.div (F64.mul (F64.sub capacity usedFinally) (F64.ofInt weight)) capacity)

/-- The `switch scoringType` of `Score`, in float64. -/
def scoreResource (rule : ResourcesType) (request nodeUsed allocate : F64) : ScoreResult :=
  if rule.Type_ = MostAllocated then mostRequestedScore request nodeUsed allocate rule.Weight
  else if rule.Type_ = LeastAllocated then leastRequestedScore request nodeUsed allocate rule.Weight
  else .ok F64.zero

/-- The `for` loop of `Score`, in float64; `none` is the early `return 0`. -/
def scoreLoop (requested allocatable used : Resource) (weight : ResourceStrategyFit) :
    List ResourceName → F64 → Int → Option (F64 × Int)
  | [], score, weightSum => some (score, weightSum)
  | resource :: rest, score, weightSum =>
    match weight.Resources.lookup resource with
    | none => scoreLoop requested allocatable used weight rest score weightSum
    | some rule =>
      match scoreResource rule (requested.Get resource) (used.Get resource)
          (allocatable.Get resource) with
      | .notEnough => none
      | .ok resourceScore =>
        scoreLoop requested allocatable used weight rest (F64.add score resourceScore)
          (wrap64 (weightSum + rule.Weight))

/-- The function `Score`, in float64. -/
def Score (task : TaskInfo) (node : NodeInfo) (weight : ResourceStrategyFit) : F64 :=
  match scoreLoop task.Resreq node.Allocatable node.Used weight task.Resreq.ResourceNames
      F64.zero 0 with
  | none => F64.zero
  | some (score, weightSum) =>
    F64.mul (if weightSum > 0 then F64.div score (F64.ofInt weightSum) else score)
      (F64.ofInt (wrap64 (MaxNodeScore * weight.ResourceStrategyFitWeight)))

/-- The resource vector that enumerates the names of a list of pairs and holds
the listed quantity under each name, 0 under any other. -/
def Resource.ofList (l : List (ResourceName × F64)) : Resource :=
  { ResourceNames := l.map Prod.fst, Get := fun r => (l.lookup r).getD F64.zero }

end Float64

/-! ## Concrete float64 inputs -/

namespace Float64

end Float64

theorem wrap64_of_range (x : Int) (hlo : -2 ^ 63 ≤ x) (hhi : x < 2 ^ 63) : wrap64 x = x := by
  unfold wrap64
  norm_num at hlo hhi ⊢
  omega

theorem wrap64_idem (x : Int) : wrap64 (wrap64 x) = wrap64 x := by
  unfold wrap64
  omega

theorem wrap64_add_left (a b : Int) : wrap64 (wrap64 a + b) = wrap64 (a + b) := by
  unfold wrap64
  omega

/-! ## The loop of `Score` in closed form -/

theorem scoreLoop_closed (requested allocatable used : Resource) (weight : ResourceStrategyFit)
    (names : List ResourceName) :
    ∀ (score : ℚ) (weightSum : Int), wrap64 weightSum = weightSum →
      scoreLoop requested allocatable used weight names score weightSum =
        if (tracked weight names).any (insufficient requested allocatable used weight) then none
        else some (score + ((tracked weight names).map
              (resourceScoreOf requested allocatable used weight)).sum,
            wrap64 (weightSum + ((tracked weight names).map (resourceWeightOf weight)).sum)) := by
  induction names with
  | nil =>
    intro score weightSum hw
    simp [scoreLoop, tracked, hw]
  | cons r rest ih =>
    intro score weightSum hw
    cases hl : weight.Resources.lookup r with
    | none =>
      have ht : tracked weight (r :: rest) = tracked weight rest := by
        simp [tracked, List.filter_cons, hl]
      rw [ht, scoreLoop, hl]
      exact ih score weightSum hw
    | some rule =>
      have ht : tracked weight (r :: rest) = r :: tracked weight rest := by
        simp [tracked, List.filter_cons, hl]
      rw [ht, scoreLoop, hl]
      cases hs : scoreResource rule (requested.Get r) (used.Get r) (allocatable.Get r) with
      | error e =>
        simp [insufficient, hl, hs]
      | ok x =>
        simp only [hs]
        rw [ih (score + x) (wrap64 (weightSum + rule.Weight)) (wrap64_idem _)]
        have hi : insufficient requested allocatable used weight r = false := by
          simp [insufficient, hl, hs]
        have hx : resourceScoreOf requested allocatable used weight r = x := by
          simp [resourceScoreOf, hl, hs]
        have hwt : resourceWeightOf weight r = rule.Weight := by
          simp [resourceWeightOf, hl]
        simp only [List.any_cons, hi, Bool.false_or, List.map_cons, List.sum_cons, hx, hwt]
        rw [wrap64_add_left, add_assoc, add_assoc]

theorem Score_closed (task : TaskInfo) (node : NodeInfo) (weight : ResourceStrategyFit) :
    Score task node weight =
      if (tracked weight task.Resreq.ResourceNames).any
          (insufficient task.Resreq node.Allocatable node.Used weight) then 0
      else
        (if wrap64 (weightSumOf task weight) > 0 then
            scoreSum task node weight / (wrap64 (weightSumOf task weight) : ℚ)
          else scoreSum task node weight)
          * ((wrap64 (MaxNodeScore * weight.ResourceStrategyFitWeight) : Int) : ℚ) := by
  unfold Score
  rw [scoreLoop_closed _ _ _ _ _ 0 0 (by decide)]
  by_cases h : (tracked weight task.Resreq.ResourceNames).any
      (insufficient task.Resreq node.Allocatable node.Used weight) = true
  · simp [h]
  · simp [h, scoreSum, weightSumOf]

theorem Score_eq_zero_of_insufficient (task : TaskInfo) (node : NodeInfo)
    (weight : ResourceStrategyFit) (r : ResourceName) (hr : r ∈ task.Resreq.ResourceNames)
    (hi : insufficient task.Resreq node.Allocatable node.Used weight r = true) :
    Score task node weight = 0 := by
  have hl : (weight.Resources.lookup r).isSome = true := by
    unfold insufficient at hi
    cases h : weight.Resources.lookup r with
    | none => simp [h] at hi
    | some rule => rfl
  have hmem : r ∈ tracked weight task.Resreq.ResourceNames := by
    simp [tracked, List.mem_filter, hr, hl]
  have hany : (tracked weight task.Resreq.ResourceNames).any
      (insufficient task.Resreq node.Allocatable node.Used weight) = true :=
    List.any_eq_true.mpr ⟨r, hmem, hi⟩
  rw [Score_closed, if_pos hany]

/-! ## The per-resource scorers -/

/-- C1: when `requested + used ≤ capacity` and `capacity > 0`, both scorers return
a score without error, and the two scores add up to exactly the weight. -/
theorem most_plus_least_eq_weight (requested used capacity : ℚ) (weight : Int)
    (hfit : requested + used ≤ capacity) (hcap : capacity > 0) :
    ∃ m l : ℚ, mostRequestedScore requested used capacity weight = .ok m ∧
      leastRequestedScore requested used capacity weight = .ok l ∧
      m + l = (weight : ℚ) := by
  have hc : capacity ≠ 0 := ne_of_gt hcap
  have hnot : ¬ requested + used > capacity := not_lt.mpr hfit
  by_cases hw : weight = 0
  · exact ⟨0, 0, by simp [mostRequestedScore, hw], by simp [leastRequestedScore, hw],
      by simp [hw]⟩
  · refine ⟨(requested + used) * (weight : ℚ) / capacity,
      (capacity - (requested + used)) * (weight : ℚ) / capacity, ?_, ?_, ?_⟩
    · simp [mostRequestedScore, hc, hw, hnot]
    · simp [leastRequestedScore, hc, hw, hnot]
    · field_simp
      ring

/-- The witness of C1: requested 1, used 2, capacity 10, weight 3. -/
theorem most_plus_least_eq_weight_witness :
    ∃ m l : ℚ, mostRequestedScore 1 2 10 3 = .ok m ∧
      leastRequestedScore 1 2 10 3 = .ok l ∧ m + l = ((3 : Int) : ℚ) :=
  most_plus_least_eq_weight 1 2 10 3 (by norm_num) (by norm_num)

/-- C3, as stated, fails: with capacity 0, or with weight 0, both scorers return
the score 0 without error although `requested + used > capacity`; and `Score` is
450, not 0, for a task requesting 1 cpu and 1 gpu on a node with no gpu, and also
on a node with half a gpu when the gpu rule names an unknown strategy. -/
theorem insufficiency_counterexample :
    ((1 : ℚ) + 0 > 0 ∧ mostRequestedScore 1 0 0 1 = .ok 0 ∧
      leastRequestedScore 1 0 0 1 = .ok 0) ∧
    ((3 : ℚ) + 0 > 2 ∧ mostRequestedScore 3 0 2 0 = .ok 0 ∧
      leastRequestedScore 3 0 2 0 = .ok 0) ∧
    (cfgCpuGpu.Resources.lookup "gpu" = some { Type_ := LeastAllocated, Weight := 1 } ∧
      "gpu" ∈ taskCpuGpu.Resreq.ResourceNames ∧
      taskCpuGpu.Resreq.Get "gpu" + nodeNoGpu.Used.Get "gpu" > nodeNoGpu.Allocatable.Get "gpu" ∧
      Score taskCpuGpu nodeNoGpu cfgCpuGpu = 450) ∧
    (taskCpuGpu.Resreq.Get "gpu" + nodeHalfGpu.Used.Get "gpu"
        > nodeHalfGpu.Allocatable.Get "gpu" ∧
      Score taskCpuGpu nodeHalfGpu cfgUnknownStrategy = 450) := by
  refine ⟨⟨by norm_num, by simp [mostRequestedScore], by simp [leastRequestedScore]⟩,
    ⟨by norm_num, by simp [mostRequestedScore], by simp [leastRequestedScore]⟩,
    ⟨by decide, by decide, ?_, ?_⟩, ⟨?_, ?_⟩⟩
  · simp +decide [taskCpuGpu, nodeNoGpu, Resource.ofList, List.lookup]
  · simp +decide [Score, scoreLoop, scoreResource, leastRequestedScore, mostRequestedScore,
      taskCpuGpu, nodeNoGpu, cfgCpuGpu, Resource.ofList, List.lookup, LeastAllocated,
      MostAllocated, MaxNodeScore, wrap64]
    norm_num
  · simp +decide [taskCpuGpu, nodeHalfGpu, Resource.ofList, List.lookup]
    norm_num
  · simp +decide [Score, scoreLoop, scoreResource, leastRequestedScore, mostRequestedScore,
      taskCpuGpu, nodeHalfGpu, cfgUnknownStrategy, Resource.ofList, List.lookup, LeastAllocated,
      MostAllocated, MaxNodeScore, wrap64]
    norm_num

/-- C3 (amended): when `requested + used > capacity` with a capacity and a
weight that are not 0, both scorers return the error "node resources are not
enough"; and `Score` is exactly 0 for a node on which a requested resource with a
MostAllocated or LeastAllocated rule of weight other than 0 has an allocatable
quantity other than 0 and `requested + used > allocatable`. -/
theorem insufficiency_with_nonzero_capacity_and_weight :
    (∀ (requested used capacity : ℚ) (weight : Int),
      requested + used > capacity → capacity ≠ 0 → weight ≠ 0 →
        mostRequestedScore requested used capacity weight = .error notEnough ∧
        leastRequestedScore requested used capacity weight = .error notEnough) ∧
    (∀ (task : TaskInfo) (node : NodeInfo) (weight : ResourceStrategyFit)
        (r : ResourceName) (rule : ResourcesType),
      r ∈ task.Resreq.ResourceNames → weight.Resources.lookup r = some rule →
      (rule.Type_ = MostAllocated ∨ rule.Type_ = LeastAllocated) → rule.Weight ≠ 0 →
      node.Allocatable.Get r ≠ 0 →
      task.Resreq.Get r + node.Used.Get r > node.Allocatable.Get r →
        Score task node weight = 0) := by
  have hscorers : ∀ (requested used capacity : ℚ) (weight : Int),
      requested + used > capacity → capacity ≠ 0 → weight ≠ 0 →
        mostRequestedScore requested used capacity weight = .error notEnough ∧
        leastRequestedScore requested used capacity weight = .error notEnough := by
    intro requested used capacity weight hover hc hw
    constructor
    · simp [mostRequestedScore, hc, hw, hover]
    · simp [leastRequestedScore, hc, hw, hover]
  refine ⟨hscorers, ?_⟩
  intro task node weight r rule hr hl ht hw ha hover
  have hboth := hscorers _ _ _ rule.Weight hover ha hw
  apply Score_eq_zero_of_insufficient task node weight r hr
  unfold insufficient
  rw [hl]
  rcases ht with ht | ht
  · simp [scoreResource, ht, hboth.1]
  · have hne : ¬ LeastAllocated = MostAllocated := by decide
    simp [scoreResource, ht, hne, hboth.2]

/-- The witness of C3 (amended): requested 3 of a capacity 2 under weight 1, and
the task requesting 1 cpu and 1 gpu on the node with half a gpu. -/
theorem insufficiency_with_nonzero_capacity_and_weight_witness :
    (mostRequestedScore 3 0 2 1 = .error notEnough ∧
      leastRequestedScore 3 0 2 1 = .error notEnough) ∧
    Score taskCpuGpu nodeHalfGpu cfgCpuGpu = 0 :=
  ⟨insufficiency_with_nonzero_capacity_and_weight.1 3 0 2 1 (by norm_num) (by norm_num)
      (by decide),
    insufficiency_with_nonzero_capacity_and_weight.2 taskCpuGpu nodeHalfGpu cfgCpuGpu "gpu"
      { Type_ := LeastAllocated, Weight := 1 } (by decide) (by decide) (Or.inr rfl) (by decide)
      (by simp +decide [nodeHalfGpu, Resource.ofList, List.lookup])
      (by simp +decide [taskCpuGpu, nodeHalfGpu, Resource.ofList, List.lookup]; norm_num)⟩

/-- C4: if the scorer selected by the rule of at least one requested resource
that has a rule returns the insufficiency error, `Score` returns exactly 0,
whatever the other resources and the overall weight are. -/
theorem Score_zero_when_a_scorer_fails (task : TaskInfo) (node : NodeInfo)
    (weight : ResourceStrategyFit) (r : ResourceName) (rule : ResourcesType)
    (hr : r ∈ task.Resreq.ResourceNames) (hl : weight.Resources.lookup r = some rule)
    (herr : scoreResource rule (task.Resreq.Get r) (node.Used.Get r)
      (node.Allocatable.Get r) = .error notEnough) :
    Score task node weight = 0 := by
  apply Score_eq_zero_of_insufficient task node weight r hr
  simp [insufficient, hl, herr]

/-- The witness of C4: the task requesting 1 cpu and 1 gpu on the node with half
a gpu, where the gpu scorer fails. -/
theorem Score_zero_when_a_scorer_fails_witness :
    Score taskCpuGpu nodeHalfGpu cfgCpuGpu = 0 :=
  Score_zero_when_a_scorer_fails taskCpuGpu nodeHalfGpu cfgCpuGpu "gpu"
    { Type_ := LeastAllocated, Weight := 1 } (by decide) (by decide)
    (by
      simp +decide [scoreResource, leastRequestedScore, taskCpuGpu, nodeHalfGpu,
        Resource.ofList, List.lookup, LeastAllocated, MostAllocated]
      norm_num)

/-! ## The normalized score -/

/-- C5, as stated, fails where the 64-bit integers of the code wrap around. With
two positive rule weights of `2 ^ 62` the code's `weightSum` is `-2 ^ 63`, the
division is skipped, and `Score` is `100 * 2 ^ 62` where the formula gives 50;
with overall weight `2 ^ 63 - 1` the product `MaxNodeScore * overallWeight` is
`-100`, and `Score` is `-50` where the formula gives `50 * (2 ^ 63 - 1)`. -/
theorem normalized_score_counterexample :
    ((∀ kv ∈ cfgHugeRuleWeights.Resources, 0 < kv.2.Weight) ∧
      (∀ r ∈ taskCpuMem.Resreq.ResourceNames,
        insufficient taskCpuMem.Resreq nodeTwoTwo.Allocatable nodeTwoTwo.Used
          cfgHugeRuleWeights r = false) ∧
      Score taskCpuMem nodeTwoTwo cfgHugeRuleWeights = 461168601842738790400 ∧
      normalizedScore taskCpuMem nodeTwoTwo cfgHugeRuleWeights = 50) ∧
    ((∀ kv ∈ cfgHugeOverallWeight.Resources, 0 < kv.2.Weight) ∧
      (∀ r ∈ taskCpuMem.Resreq.ResourceNames,
        insufficient taskCpuMem.Resreq nodeTwoTwo.Allocatable nodeTwoTwo.Used
          cfgHugeOverallWeight r = false) ∧
      Score taskCpuMem nodeTwoTwo cfgHugeOverallWeight = -50 ∧
      normalizedScore taskCpuMem nodeTwoTwo cfgHugeOverallWeight
        = 461168601842738790350) := by
  refine ⟨⟨by decide, ?_, ?_, ?_⟩, ⟨by decide, ?_, ?_, ?_⟩⟩
  · simp +decide [insufficient, scoreResource, leastRequestedScore, taskCpuMem, nodeTwoTwo,
      cfgHugeRuleWeights, Resource.ofList, List.lookup, LeastAllocated, MostAllocated]
  · simp +decide [Score, scoreLoop, scoreResource, leastRequestedScore, taskCpuMem, nodeTwoTwo,
      cfgHugeRuleWeights, Resource.ofList, List.lookup, LeastAllocated, MostAllocated,
      MaxNodeScore, wrap64]
    norm_num
  · simp +decide [normalizedScore, scoreSum, weightSumOf, tracked, resourceScoreOf,
      resourceWeightOf, scoreResource, leastRequestedScore, taskCpuMem, nodeTwoTwo,
      cfgHugeRuleWeights, Resource.ofList, List.lookup, LeastAllocated, MostAllocated,
      MaxNodeScore]
    norm_num
  · simp +decide [insufficient, scoreResource, leastRequestedScore, taskCpuMem, nodeTwoTwo,
      cfgHugeOverallWeight, Resource.ofList, List.lookup, LeastAllocated, MostAllocated]
  · simp +decide [Score, scoreLoop, scoreResource, leastRequestedScore, taskCpuMem, nodeTwoTwo,
      cfgHugeOverallWeight, Resource.ofList, List.lookup, LeastAllocated, MostAllocated,
      MaxNodeScore, wrap64]
    norm_num
  · simp +decide [normalizedScore, scoreSum, weightSumOf, tracked, resourceScoreOf,
      resourceWeightOf, scoreResource, leastRequestedScore, taskCpuMem, nodeTwoTwo,
      cfgHugeOverallWeight, Resource.ofList, List.lookup, LeastAllocated, MostAllocated,
      MaxNodeScore]
    norm_num

theorem lookup_mem {β : Type} (l : List (ResourceName × β)) (r : ResourceName) (v : β)
    (h : l.lookup r = some v) : ∃ kv ∈ l, kv.2 = v := by
  induction l with
  | nil => simp [List.lookup] at h
  | cons kv rest ih =>
    obtain ⟨k, w⟩ := kv
    by_cases hk : r = k
    · subst hk
      simp [List.lookup] at h
      exact ⟨(r, w), List.mem_cons_self _ _, h⟩
    · have hb : (r == k) = false := by simpa using hk
      rw [List.lookup, hb] at h
      obtain ⟨kv, hm, hv⟩ := ih h
      exact ⟨kv, List.mem_cons_of_mem _ hm, hv⟩

theorem resourceWeightOf_pos (weight : ResourceStrategyFit)
    (hpos : ∀ kv ∈ weight.Resources, 0 < kv.2.Weight) (names : List ResourceName) :
    ∀ r ∈ tracked weight names, 0 < resourceWeightOf weight r := by
  intro r hr
  have hsome : (weight.Resources.lookup r).isSome = true := by
    simpa [tracked, List.mem_filter] using (List.mem_filter.mp hr).2
  obtain ⟨rule, hl⟩ := Option.isSome_iff_exists.mp hsome
  obtain ⟨kv, hm, hv⟩ := lookup_mem _ _ _ hl
  have := hpos kv hm
  simp [resourceWeightOf, hl, ← hv, this]

theorem sum_pos_of_pos (l : List Int) (h : ∀ x ∈ l, 0 < x) (hne : l ≠ []) : 0 < l.sum := by
  induction l with
  | nil => exact absurd rfl hne
  | cons a rest ih =>
    rw [List.sum_cons]
    have ha : 0 < a := h a (List.mem_cons_self _ _)
    by_cases hr : rest = []
    · simp [hr, ha]
    · have := ih (fun x hx => h x (List.mem_cons_of_mem _ hx)) hr
      omega

/-- C5 (amended): for a primary config whose rule weights are all positive, when
no requested resource that has a rule signals insufficiency, and when the sum of
the rule weights over those resources and the product `MaxNodeScore * overallWeight`
both fit a signed 64-bit integer, `Score` equals (sum of the per-resource scores /
sum of the rule weights) * MaxNodeScore * overallWeight if that weight sum is > 0,
and 0 if no requested resource has a rule. -/
theorem Score_eq_normalizedScore (task : TaskInfo) (node : NodeInfo)
    (weight : ResourceStrategyFit)
    (hpos : ∀ kv ∈ weight.Resources, 0 < kv.2.Weight)
    (hok : ∀ r ∈ task.Resreq.ResourceNames,
      insufficient task.Resreq node.Allocatable node.Used weight r = false)
    (hsum : weightSumOf task weight < 2 ^ 63)
    (hlo : -2 ^ 63 ≤ MaxNodeScore * weight.ResourceStrategyFitWeight)
    (hhi : MaxNodeScore * weight.ResourceStrategyFitWeight < 2 ^ 63) :
    Score task node weight = normalizedScore task node weight ∧
    (0 < weightSumOf task weight →
      Score task node weight =
        scoreSum task node weight / (weightSumOf task weight : ℚ) * (MaxNodeScore : ℚ)
          * (weight.ResourceStrategyFitWeight : ℚ)) ∧
    (tracked weight task.Resreq.ResourceNames = [] → Score task node weight = 0) := by
  have hany : ¬ (tracked weight task.Resreq.ResourceNames).any
      (insufficient task.Resreq node.Allocatable node.Used weight) = true := by
    intro h
    obtain ⟨r, hr, hi⟩ := List.any_eq_true.mp h
    have hr2 : r ∈ task.Resreq.ResourceNames := (List.mem_filter.mp hr).1
    rw [hok r hr2] at hi
    exact Bool.noConfusion hi
  have hwpos := resourceWeightOf_pos weight hpos task.Resreq.ResourceNames
  have hnonneg : 0 ≤ weightSumOf task weight := by
    unfold weightSumOf
    apply List.sum_nonneg
    intro x hx
    obtain ⟨r, hr, rfl⟩ := List.mem_map.mp hx
    exact le_of_lt (hwpos r hr)
  have hwrapW : wrap64 (weightSumOf task weight) = weightSumOf task weight :=
    wrap64_of_range _ (by omega) hsum
  have hwrapO : wrap64 (MaxNodeScore * weight.ResourceStrategyFitWeight)
      = MaxNodeScore * weight.ResourceStrategyFitWeight := wrap64_of_range _ hlo hhi
  have hmain : Score task node weight = normalizedScore task node weight := by
    rw [Score_closed, if_neg hany, hwrapW, hwrapO]
    unfold normalizedScore
    by_cases hW : weightSumOf task weight > 0
    · rw [if_pos hW, if_pos hW]
      push_cast
      ring
    · rw [if_neg hW, if_neg hW]
      have hnil : tracked weight task.Resreq.ResourceNames = [] := by
        by_contra hne
        apply hW
        unfold weightSumOf
        apply sum_pos_of_pos
        · intro x hx
          obtain ⟨r, hr, rfl⟩ := List.mem_map.mp hx
          exact hwpos r hr
        · simpa using hne
      simp [scoreSum, hnil]
  refine ⟨hmain, ?_, ?_⟩
  · intro hW
    rw [hmain, normalizedScore, if_pos hW]
  · intro hnil
    rw [hmain, normalizedScore]
    simp [weightSumOf, hnil]

/-- The witness of C5 (amended): the task requesting 1 cpu and 1 memory on the
idle node with 2 cpu and 2 memory, under the default rules with overall weight 10. -/
theorem Score_eq_normalizedScore_witness :
    Score taskCpuMem nodeTwoTwo cfgDefault = normalizedScore taskCpuMem nodeTwoTwo cfgDefault ∧
    (0 < weightSumOf taskCpuMem cfgDefault →
      Score taskCpuMem nodeTwoTwo cfgDefault =
        scoreSum taskCpuMem nodeTwoTwo cfgDefault / (weightSumOf taskCpuMem cfgDefault : ℚ)
          * (MaxNodeScore : ℚ) * (cfgDefault.ResourceStrategyFitWeight : ℚ)) ∧
    (tracked cfgDefault taskCpuMem.Resreq.ResourceNames = [] →
      Score taskCpuMem nodeTwoTwo cfgDefault = 0) :=
  Score_eq_normalizedScore taskCpuMem nodeTwoTwo cfgDefault (by decide)
    (by
      simp +decide [insufficient, scoreResource, leastRequestedScore, taskCpuMem, nodeTwoTwo,
        cfgDefault, Resource.ofList, List.lookup, LeastAllocated, MostAllocated])
    (by decide) (by decide) (by decide)

/-! ## Resources without a rule -/

theorem tracked_perm_of_count (weight : ResourceStrategyFit) (names₁ names₂ : List ResourceName)
    (h : ∀ r rule, weight.Resources.lookup r = some rule → names₁.count r = names₂.count r) :
    (tracked weight names₁).Perm (tracked weight names₂) := by
  rw [List.perm_iff_count]
  intro a
  unfold tracked
  cases hl : weight.Resources.lookup a with
  | none =>
    have hnot : ∀ l : List ResourceName,
        a ∉ l.filter (fun r => (weight.Resources.lookup r).isSome) := by
      intro l hm
      have := (List.mem_filter.mp hm).2
      simp [hl] at this
    rw [List.count_eq_zero_of_not_mem (hnot _), List.count_eq_zero_of_not_mem (hnot _)]
  | some rule =>
    have hp : (fun r => (weight.Resources.lookup r).isSome) a = true := by simp [hl]
    have hc : ∀ l : List ResourceName,
        (l.filter (fun r => (weight.Resources.lookup r).isSome)).count a = l.count a :=
      fun l => List.count_filter (p := fun r => (weight.Resources.lookup r).isSome) hp
    rw [hc, hc]
    exact h a rule hl

theorem sum_map_perm_congr {M : Type} [AddCommMonoid M] (l₁ l₂ : List ResourceName)
    (f g : ResourceName → M) (hp : l₁.Perm l₂) (hfg : ∀ r ∈ l₁, f r = g r) :
    (l₁.map f).sum = (l₂.map g).sum := by
  rw [List.map_congr_left hfg]
  exact (hp.map g).sum_eq

theorem any_perm_congr (l₁ l₂ : List ResourceName) (f g : ResourceName → Bool)
    (hp : l₁.Perm l₂) (hfg : ∀ r ∈ l₁, f r = g r) : l₁.any f = l₂.any g := by
  rw [Bool.eq_iff_iff, List.any_eq_true, List.any_eq_true]
  constructor
  · rintro ⟨r, hr, hf⟩
    exact ⟨r, hp.mem_iff.mp hr, by rw [← hfg r hr]; exact hf⟩
  · rintro ⟨r, hr, hg⟩
    have hr1 := hp.mem_iff.mpr hr
    exact ⟨r, hr1, by rw [hfg r hr1]; exact hg⟩

theorem normalizeRule_weight (v : ResourcesType) :
    (normalizeRule v).Weight = if v.Weight ≤ 0 then 1 else v.Weight := by
  unfold normalizeRule
  by_cases hw : v.Weight ≤ 0 <;>
    by_cases ht : v.Type_ ≠ LeastAllocated ∧ v.Type_ ≠ MostAllocated <;> simp [hw, ht]

theorem normalizeRule_type (v : ResourcesType) :
    (normalizeRule v).Type_ =
      if v.Type_ ≠ LeastAllocated ∧ v.Type_ ≠ MostAllocated then LeastAllocated else v.Type_ := by
  unfold normalizeRule
  by_cases hw : v.Weight ≤ 0 <;>
    by_cases ht : v.Type_ ≠ LeastAllocated ∧ v.Type_ ≠ MostAllocated <;> simp [hw, ht]

theorem normalizeRule_valid (v : ResourcesType) :
    1 ≤ (normalizeRule v).Weight ∧
      ((normalizeRule v).Type_ = MostAllocated ∨ (normalizeRule v).Type_ = LeastAllocated) := by
  rw [normalizeRule_weight, normalizeRule_type]
  constructor
  · split_ifs <;> omega
  · by_cases ht : v.Type_ ≠ LeastAllocated ∧ v.Type_ ≠ MostAllocated
    · rw [if_pos ht]
      exact Or.inr rfl
    · rw [if_neg ht]
      by_cases hl : v.Type_ = LeastAllocated
      · exact Or.inr hl
      · left
        by_contra hm
        exact ht ⟨hl, hm⟩

theorem normalizeRule_of_valid (v : ResourcesType) (hw : 0 < v.Weight)
    (ht : v.Type_ = MostAllocated ∨ v.Type_ = LeastAllocated) : normalizeRule v = v := by
  have hw2 : ¬ v.Weight ≤ 0 := not_le.mpr hw
  have ht2 : ¬ (v.Type_ ≠ LeastAllocated ∧ v.Type_ ≠ MostAllocated) := by
    rintro ⟨h1, h2⟩
    rcases ht with h | h
    · exact h2 h
    · exact h1 h
  unfold normalizeRule
  simp [hw2, ht2]

theorem normalizeRule_idem (v : ResourcesType) : normalizeRule (normalizeRule v) = normalizeRule v :=
  normalizeRule_of_valid _ (by have := (normalizeRule_valid v).1; omega) (normalizeRule_valid v).2

theorem lookup_map_values {β γ : Type} (f : β → γ) (l : List (ResourceName × β))
    (r : ResourceName) :
    (l.map (fun kv => (kv.1, f kv.2))).lookup r = (l.lookup r).map f := by
  induction l with
  | nil => rfl
  | cons kv rest ih =>
    obtain ⟨k, w⟩ := kv
    cases hb : (r == k) with
    | true => simp [List.lookup, hb]
    | false => simpa [List.lookup, hb] using ih

/-- C7: every rule in the mapping returned by `calculateWeight` has weight at
least 1 and strategy MostAllocated or LeastAllocated; and a rule given under a
resource name comes out under the same name with weight 1 if its weight was ≤ 0,
with its weight if that was > 0, as LeastAllocated if its strategy was neither
constant, with its strategy if that was one of them, and so unchanged if it had a
weight > 0 and a valid strategy. -/
theorem calculateWeight_rules_normalized (args : Arguments) :
    (∀ kv ∈ (calculateWeight args).Resources,
      1 ≤ kv.2.Weight ∧ (kv.2.Type_ = MostAllocated ∨ kv.2.Type_ = LeastAllocated)) ∧
    (∀ (given : List (ResourceName × ResourcesType)) (r : ResourceName) (v : ResourcesType),
      args.resources = some given → given.lookup r = some v →
      ∃ out, (calculateWeight args).Resources.lookup r = some out ∧
        (v.Weight ≤ 0 → out.Weight = 1) ∧
        (0 < v.Weight → out.Weight = v.Weight) ∧
        (v.Type_ ≠ MostAllocated ∧ v.Type_ ≠ LeastAllocated → out.Type_ = LeastAllocated) ∧
        (v.Type_ = MostAllocated ∨ v.Type_ = LeastAllocated → out.Type_ = v.Type_) ∧
        (0 < v.Weight → (v.Type_ = MostAllocated ∨ v.Type_ = LeastAllocated) → out = v)) := by
  constructor
  · intro kv hkv
    simp only [calculateWeight, List.mem_map] at hkv
    obtain ⟨kv0, _, rfl⟩ := hkv
    exact normalizeRule_valid kv0.2
  · intro given r v hg hl
    have hne : ¬ given.length = 0 := by
      intro h0
      have : given = [] := List.length_eq_zero.mp h0
      rw [this] at hl
      simp [List.lookup] at hl
    refine ⟨normalizeRule v, ?_, ?_, ?_, ?_, ?_, ?_⟩
    · simp only [calculateWeight, hg, if_neg hne]
      rw [lookup_map_values, hl]
      rfl
    · intro h
      rw [normalizeRule_weight, if_pos h]
    · intro h
      rw [normalizeRule_weight, if_neg (not_le.mpr h)]
    · intro h
      rw [normalizeRule_type, if_pos ⟨h.2, h.1⟩]
    · intro h
      have : ¬ (v.Type_ ≠ LeastAllocated ∧ v.Type_ ≠ MostAllocated) := by
        rintro ⟨h1, h2⟩
        rcases h with h | h
        · exact h2 h
        · exact h1 h
      rw [normalizeRule_type, if_neg this]
    · intro hw ht
      exact normalizeRule_of_valid v hw ht

/-- The witness of C7: the bag with a gpu rule of weight 0 and unknown strategy
and a valid cpu rule. -/
theorem calculateWeight_rules_normalized_witness :
    (calculateWeight argsMixed).Resources =
      [("gpu", { Type_ := LeastAllocated, Weight := 1 }),
       ("cpu", { Type_ := MostAllocated, Weight := 2 }),
       ("memory", { Type_ := LeastAllocated, Weight := 1 })] ∧
    (∃ out, (calculateWeight argsMixed).Resources.lookup "gpu" = some out ∧
      out.Weight = 1 ∧ out.Type_ = LeastAllocated) ∧
    (∃ out, (calculateWeight argsMixed).Resources.lookup "cpu" = some out ∧
      out = { Type_ := MostAllocated, Weight := 2 }) := by
  refine ⟨by decide, ?_, ?_⟩
  · obtain ⟨out, h, h1, _, h3, _, _⟩ :=
      (calculateWeight_rules_normalized argsMixed).2 _ "gpu" { Type_ := "Balanced", Weight := 0 }
        rfl (by decide)
    exact ⟨out, h, h1 (by decide), h3 (by decide)⟩
  · obtain ⟨out, h, _, _, _, _, h5⟩ :=
      (calculateWeight_rules_normalized argsMixed).2 _ "cpu" { Type_ := MostAllocated, Weight := 2 }
        rfl (by decide)
    exact ⟨out, h, h5 (by decide) (Or.inl rfl)⟩

theorem calculateWeight_weight (args : Arguments) :
    (calculateWeight args).ResourceStrategyFitWeight =
      match args.resourceStrategyFitWeight with
      | none => DefaultResourceStrategyFitPluginWeight
      | some w => if w < 0 then DefaultResourceStrategyFitPluginWeight else w := rfl

theorem calculateWeight_weight_nonneg (args : Arguments) :
    0 ≤ (calculateWeight args).ResourceStrategyFitWeight := by
  rw [calculateWeight_weight]
  cases args.resourceStrategyFitWeight with
  | none => decide
  | some w =>
    by_cases h : w < 0
    · simp only [if_pos h]
      decide
    · simp only [if_neg h]
      omega

theorem calculateWeight_resources_length (args : Arguments) :
    ¬ (calculateWeight args).Resources.length = 0 := by
  simp only [calculateWeight, List.length_map]
  cases args.resources with
  | none => decide
  | some m =>
    by_cases h : m.length = 0
    · simp only [if_pos h]
      decide
    · simpa only [if_neg h] using h

/-- C8: configuration resolution is idempotent. Feeding the overall weight and
the rule mapping that `calculateWeight` returned back in as the
"resourceStrategyFitWeight" and "resources" arguments makes `calculateWeight`
return the same overall weight and the same rule mapping. -/
theorem calculateWeight_idempotent (args : Arguments) :
    calculateWeight
        { args with
          resourceStrategyFitWeight := some (calculateWeight args).ResourceStrategyFitWeight
          resources := some (calculateWeight args).Resources }
      = calculateWeight args := by
  have hw := calculateWeight_weight_nonneg args
  have hlen := calculateWeight_resources_length args
  have hmap : (calculateWeight args).Resources.map (fun kv => (kv.1, normalizeRule kv.2))
      = (calculateWeight args).Resources := by
    simp only [calculateWeight, List.map_map]
    apply List.map_congr_left
    intro kv _
    simp [normalizeRule_idem]
  generalize hout : calculateWeight args = out at hw hlen hmap
  obtain ⟨w, rs⟩ := out
  simp only [calculateWeight, if_neg (not_lt.mpr hw), if_neg hlen]
  simpa using hmap

/-- C9: the overall weight returned by `calculateWeight` is 10 when
"resourceStrategyFitWeight" is absent or negative, and the given value when it
is present and ≥ 0; it is never negative. -/
theorem calculateWeight_overall_weight (args : Arguments) :
    (args.resourceStrategyFitWeight = none →
      (calculateWeight args).ResourceStrategyFitWeight = 10) ∧
    (∀ w, args.resourceStrategyFitWeight = some w → w < 0 →
      (calculateWeight args).ResourceStrategyFitWeight = 10) ∧
    (∀ w, args.resourceStrategyFitWeight = some w → 0 ≤ w →
      (calculateWeight args).ResourceStrategyFitWeight = w) ∧
    0 ≤ (calculateWeight args).ResourceStrategyFitWeight := by
  refine ⟨?_, ?_, ?_, calculateWeight_weight_nonneg args⟩
  · intro h
    rw [calculateWeight_weight, h]
    rfl
  · intro w h hneg
    rw [calculateWeight_weight, h]
    simp only [if_pos hneg]
    rfl
  · intro w h hnn
    rw [calculateWeight_weight, h]
    simp only [if_neg (not_lt.mpr hnn)]

/-- The witness of C9: the weight -3 resolves to 10, and the weight 0 is kept. -/
theorem calculateWeight_overall_weight_witness :
    (calculateWeight argsMixed).ResourceStrategyFitWeight = 10 ∧
    (calculateWeight argsEmpty).ResourceStrategyFitWeight = 0 :=
  ⟨(calculateWeight_overall_weight argsMixed).2.1 (-3) rfl (by decide),
    (calculateWeight_overall_weight argsEmpty).2.2.1 0 rfl (by decide)⟩

/-- C10: when the "resources" mapping is absent or empty, `calculateWeight`
returns exactly the mapping of cpu and memory, both LeastAllocated with weight 1;
and with no sra block `applySraPolicy` resolves the empty (disabled) policy, with
no retention and no proportional configuration. -/
theorem empty_configuration_defaults (str : GoStrings) (ext : Missing) (args : Arguments)
    (h : args.resources = none ∨ args.resources = some []) :
    (calculateWeight args).Resources =
      [("cpu", { Type_ := LeastAllocated, Weight := 1 }),
       ("memory", { Type_ := LeastAllocated, Weight := 1 })] ∧
    (args.sra = none →
      (applySraPolicy str ext args).Policy = "" ∧
      applySraPolicy str ext args =
        { Policy := "", Retention := { Weight := 0, Resources := [], ResourcesWeightSum := 0 },
          Proportional := [] }) := by
  constructor
  · rcases h with h | h <;> simp only [calculateWeight, h] <;> decide
  · intro hs
    have hp : applySraPolicy str ext args =
        { Policy := "", Retention := { Weight := 0, Resources := [], ResourcesWeightSum := 0 },
          Proportional := [] } := by
      simp [applySraPolicy, hs, zeroSraConfig, str.ToLower_empty]
    exact ⟨by rw [hp], hp⟩

/-- The witness of C10: the bag with `resources: {}` and no sra block. -/
theorem empty_configuration_defaults_witness :
    (calculateWeight argsEmpty).Resources =
      [("cpu", { Type_ := LeastAllocated, Weight := 1 }),
       ("memory", { Type_ := LeastAllocated, Weight := 1 })] ∧
    (applySraPolicy asciiStrings plainMissing argsEmpty).Policy = "" :=
  ⟨(empty_configuration_defaults asciiStrings plainMissing argsEmpty (Or.inr rfl)).1,
    ((empty_configuration_defaults asciiStrings plainMissing argsEmpty (Or.inr rfl)).2 rfl).1⟩

/-! ## The secondary policy name -/

/-- C11: `applySraPolicy` resolves the policy to "retention" exactly when the
given name lower-cased is "retention", to "proportional" exactly when it is
"proportional", and to the empty (disabled) policy for every other name, the
empty one included; the resolved policy is always one of these three values. -/
theorem applySraPolicy_policy (str : GoStrings) (ext : Missing) (args : Arguments) :
    ((applySraPolicy str ext args).Policy = "retention" ↔
      str.ToLower (givenPolicyName args) = "retention") ∧
    ((applySraPolicy str ext args).Policy = "proportional" ↔
      str.ToLower (givenPolicyName args) = "proportional") ∧
    ((applySraPolicy str ext args).Policy = "" ↔
      (str.ToLower (givenPolicyName args) ≠ "retention" ∧
        str.ToLower (givenPolicyName args) ≠ "proportional")) ∧
    (givenPolicyName args = "" → (applySraPolicy str ext args).Policy = "") ∧
    ((applySraPolicy str ext args).Policy = "" ∨
      (applySraPolicy str ext args).Policy = "retention" ∨
      (applySraPolicy str ext args).Policy = "proportional") := by
  have hrp : ¬ ("retention" = "proportional") := by decide
  have hre : ¬ ("retention" = "") := by decide
  have hpe : ¬ ("proportional" = "") := by decide
  have hpr : ¬ ("proportional" = "retention") := by decide
  have her : ¬ ("" = "retention") := by decide
  have hep : ¬ ("" = "proportional") := by decide
  have hempty : givenPolicyName args = "" → str.ToLower (givenPolicyName args) = "" := by
    intro h
    rw [h]
    exact str.ToLower_empty
  unfold givenPolicyName at *
  by_cases h0 : str.ToLower (args.sra.getD zeroSraConfig).Policy = ""
  · simp [applySraPolicy, h0, her, hep]
  · by_cases h1 : str.ToLower (args.sra.getD zeroSraConfig).Policy = "retention"
    · have hne : ¬ (args.sra.getD zeroSraConfig).Policy = "" := fun h => h0 (hempty h)
      simp [applySraPolicy, RetentionPolicy, h1, hre, hrp, hne]
    · by_cases h2 : str.ToLower (args.sra.getD zeroSraConfig).Policy = "proportional"
      · have hne : ¬ (args.sra.getD zeroSraConfig).Policy = "" := fun h => h0 (hempty h)
        simp [applySraPolicy, RetentionPolicy, ProportionalPolicy, h2, hpe, hpr, hne]
      · have hne : ¬ (args.sra.getD zeroSraConfig).Policy = "" := fun h => h0 (hempty h)
        simp [applySraPolicy, RetentionPolicy, ProportionalPolicy, h0, h1, h2, her, hep, hne]

/-- The witness of C11: the name "Retention" resolves to the retention policy. -/
theorem applySraPolicy_policy_witness :
    (applySraPolicy asciiStrings plainMissing argsRetention).Policy = "retention" :=
  (applySraPolicy_policy asciiStrings plainMissing argsRetention).1.mpr (by decide)

/-! ## Registration of the order callback -/

/-- C19: `Score` does not depend on the order in which the requested resources
are enumerated. For two tasks that hold the same quantities and whose lists of
requested resource names are permutations of each other, `Score` returns the
same value, also when some resource signals insufficiency and the result is 0. -/
theorem Score_perm (task task' : TaskInfo) (node : NodeInfo) (weight : ResourceStrategyFit)
    (hget : ∀ r, task'.Resreq.Get r = task.Resreq.Get r)
    (hperm : task'.Resreq.ResourceNames.Perm task.Resreq.ResourceNames) :
    Score task' node weight = Score task node weight := by
  have hp : (tracked weight task'.Resreq.ResourceNames).Perm
      (tracked weight task.Resreq.ResourceNames) :=
    tracked_perm_of_count weight _ _ (fun r _ _ => hperm.count_eq r)
  have hins : ∀ r ∈ tracked weight task'.Resreq.ResourceNames,
      insufficient task'.Resreq node.Allocatable node.Used weight r
        = insufficient task.Resreq node.Allocatable node.Used weight r := by
    intro r _
    simp [insufficient, hget r]
  have hsc : ∀ r ∈ tracked weight task'.Resreq.ResourceNames,
      resourceScoreOf task'.Resreq node.Allocatable node.Used weight r
        = resourceScoreOf task.Resreq node.Allocatable node.Used weight r := by
    intro r _
    simp [resourceScoreOf, hget r]
  have hS : scoreSum task' node weight = scoreSum task node weight :=
    sum_map_perm_congr _ _ _ _ hp hsc
  have hW : weightSumOf task' weight = weightSumOf task weight :=
    sum_map_perm_congr _ _ _ _ hp (fun _ _ => rfl)
  rw [Score_closed, Score_closed, any_perm_congr _ _ _ _ hp hins, hS, hW]

/-- The witness of C19: requesting memory then cpu scores as requesting cpu then
memory. -/
theorem Score_perm_witness :
    Score taskMemCpu nodeTwoTwo cfgDefault = Score taskCpuMem nodeTwoTwo cfgDefault :=
  Score_perm taskCpuMem taskMemCpu nodeTwoTwo cfgDefault
    (by
      intro r
      simp only [taskMemCpu, taskCpuMem, Resource.ofList, List.lookup]
      by_cases h1 : r = "cpu"
      · subst h1
        simp +decide
      · by_cases h2 : r = "memory"
        · subst h2
          simp +decide
        · have hb1 : (r == "cpu") = false := by simpa using h1
          have hb2 : (r == "memory") = false := by simpa using h2
          simp [hb1, hb2])
    (List.Perm.swap _ _ _)

/-! ## The retention configuration -/

theorem retentionWeightOf_nonneg (keyPrefix : String) (args : Arguments) (resource : String) :
    0 ≤ retentionWeightOf keyPrefix args resource := by
  unfold retentionWeightOf
  simp only []
  split_ifs <;> omega

theorem retentionLoop_closed (str : GoStrings) (keyPrefix : String) (args : Arguments)
    (resources : List String) :
    ∀ weight : retentionWeight, wrap64 weight.ResourcesWeightSum = weight.ResourcesWeightSum →
      retentionLoop str keyPrefix args resources weight =
        { Weight := weight.Weight
          Resources := (retentionNames str resources).foldl
            (fun m n => mapSet n (retentionWeightOf keyPrefix args n) m) weight.Resources
          ResourcesWeightSum :=
            wrap64 (weight.ResourcesWeightSum + retentionTotal str keyPrefix args resources) } := by
  induction resources with
  | nil =>
    intro weight hw
    simp [retentionLoop, retentionNames, retentionTotal, hw]
  | cons r rest ih =>
    intro weight hw
    by_cases hr : str.TrimSpace r = ""
    · have hn : retentionNames str (r :: rest) = retentionNames str rest := by
        simp [retentionNames, List.filter_cons, hr]
      have ht : retentionTotal str keyPrefix args (r :: rest)
          = retentionTotal str keyPrefix args rest := by
        simp [retentionTotal, hn]
      simp only [retentionLoop, hr, if_true]
      rw [ih weight hw, hn, ht]
    · have hn : retentionNames str (r :: rest) = str.TrimSpace r :: retentionNames str rest := by
        simp [retentionNames, List.filter_cons, hr]
      have ht : retentionTotal str keyPrefix args (r :: rest)
          = retentionWeightOf keyPrefix args (str.TrimSpace r)
            + retentionTotal str keyPrefix args rest := by
        simp [retentionTotal, hn]
      simp only [retentionLoop, hr, if_false]
      rw [ih _ (wrap64_idem _), hn, ht]
      simp only [List.foldl_cons, wrap64_add_left, add_assoc]
      rfl

theorem calculateRetentionWeight_closed (str : GoStrings) (ext : Missing)
    (resources : List String) (args : Arguments) :
    calculateRetentionWeight str ext resources args =
      { Weight := (args.GetInt SraRetentionWeight).getD 1
        Resources := (retentionNames str resources).foldl
          (fun m n => mapSet n (retentionWeightOf ext.SraRetentionResourcesPrefix args n) m) []
        ResourcesWeightSum :=
          wrap64 (retentionTotal str ext.SraRetentionResourcesPrefix args resources) } := by
  unfold calculateRetentionWeight
  have h0 : wrap64 (0 : Int) = 0 := by decide
  rw [retentionLoop_closed _ _ _ _ _ h0]
  simp

theorem mapSet_of_not_mem (k : String) (v : Int) (m : List (String × Int))
    (hk : k ∉ m.map Prod.fst) : mapSet k v m = m ++ [(k, v)] := by
  induction m with
  | nil => rfl
  | cons a rest ih =>
    have ha : ¬ a.1 = k := by
      intro h
      apply hk
      simp [h]
    have hr : k ∉ rest.map Prod.fst := by
      intro h
      apply hk
      simp only [List.map_cons, List.mem_cons]
      exact Or.inr h
    simp only [mapSet, ha, if_false, ih hr, List.cons_append]

theorem foldl_mapSet_nodup (f : String → Int) (names : List String) :
    ∀ m : List (String × Int), names.Nodup → (∀ n ∈ names, n ∉ m.map Prod.fst) →
      names.foldl (fun m n => mapSet n (f n) m) m = m ++ names.map (fun n => (n, f n)) := by
  induction names with
  | nil =>
    intro m _ _
    simp
  | cons n rest ih =>
    intro m hnd hdisj
    have hn : n ∉ m.map Prod.fst := hdisj n (List.mem_cons_self _ _)
    have hnd2 := List.nodup_cons.mp hnd
    simp only [List.foldl_cons, mapSet_of_not_mem n (f n) m hn]
    rw [ih _ hnd2.2]
    · simp
    · intro x hx
      simp only [List.map_append, List.map_cons, List.map_nil, List.mem_append,
        List.mem_singleton, not_or]
      refine ⟨hdisj x (List.mem_cons_of_mem _ hx), ?_⟩
      intro hxn
      exact hnd2.1 (hxn ▸ hx)

/-- C12, as stated, fails: for the list "gpu", "gpu" the mapping stores the weight
1 once and `ResourcesWeightSum` is 2; and for gpu and tpu with the weights
`2 ^ 62` the stored weights add up to `2 ^ 63` while `ResourcesWeightSum`, a
64-bit integer, is `-2 ^ 63`. -/
theorem retention_weight_sum_counterexample :
    ((calculateRetentionWeight asciiStrings plainMissing ["gpu", "gpu"] argsEmpty).Resources
        = [("gpu", 1)] ∧
      (calculateRetentionWeight asciiStrings plainMissing
        ["gpu", "gpu"] argsEmpty).ResourcesWeightSum = 2) ∧
    (resourcesTotal (calculateRetentionWeight asciiStrings plainMissing
        ["gpu", "tpu"] argsHugeRetention).Resources = 2 ^ 63 ∧
      (calculateRetentionWeight asciiStrings plainMissing
        ["gpu", "tpu"] argsHugeRetention).ResourcesWeightSum = -2 ^ 63) := by
  refine ⟨⟨by decide, by decide⟩, ⟨by decide, by decide⟩⟩

/-- C12 (amended): when the listed resource names, trimmed and the blank ones
skipped, are pairwise distinct and the per-resource weights stored in the
`Resources` mapping add up to less than `2 ^ 63`, the retention configuration
returned by `calculateRetentionWeight` has `ResourcesWeightSum` equal to the sum
of those stored weights. -/
theorem retention_weight_sum_of_distinct (str : GoStrings) (ext : Missing)
    (resources : List String) (args : Arguments)
    (hnodup : (retentionNames str resources).Nodup)
    (hsum : resourcesTotal (calculateRetentionWeight str ext resources args).Resources
      < 2 ^ 63) :
    (calculateRetentionWeight str ext resources args).ResourcesWeightSum =
      resourcesTotal (calculateRetentionWeight str ext resources args).Resources := by
  rw [calculateRetentionWeight_closed] at hsum ⊢
  simp only [] at hsum ⊢
  rw [foldl_mapSet_nodup _ _ [] hnodup (by simp)] at hsum ⊢
  have htot : resourcesTotal ([] ++ (retentionNames str resources).map
      (fun n => (n, retentionWeightOf ext.SraRetentionResourcesPrefix args n)))
      = retentionTotal str ext.SraRetentionResourcesPrefix args resources := by
    simp [resourcesTotal, retentionTotal, List.map_map, Function.comp_def]
  rw [htot] at hsum ⊢
  have hnn : 0 ≤ retentionTotal str ext.SraRetentionResourcesPrefix args resources := by
    unfold retentionTotal
    apply List.sum_nonneg
    intro x hx
    obtain ⟨n, _, rfl⟩ := List.mem_map.mp hx
    exact retentionWeightOf_nonneg _ _ n
  exact wrap64_of_range _ (by omega) hsum

/-- The witness of C12 (amended): the list "gpu", " tpu" and a blank name. -/
theorem retention_weight_sum_of_distinct_witness :
    (calculateRetentionWeight asciiStrings plainMissing
        ["gpu", " tpu", ""] argsEmpty).ResourcesWeightSum =
      resourcesTotal (calculateRetentionWeight asciiStrings plainMissing
        ["gpu", " tpu", ""] argsEmpty).Resources :=
  retention_weight_sum_of_distinct asciiStrings plainMissing ["gpu", " tpu", ""] argsEmpty
    (by decide) (by decide)

/-! ## Bounds of the retention score -/

end resourcestrategyfit
